import Mathlib

/-!
Verification of the PyBaMM model/mesh core: a shallow embedding of
`pybamm/models/base_model.py` (the `BaseModel` well-posedness checks and
submodel merging) and `pybamm/meshes/meshes.py` (the `Mesh` container,
`combine_submeshes` and `add_ghost_meshes`), together with proofs of the
spec's claims about them.

Conventions of the embedding:
- Python exceptions are modelled with `Except PybammError`; each `raise`
  site in the source gets its own `PybammError` constructor.
- Python dictionaries keyed by expression nodes are association lists;
  PyBaMM's `Symbol.id` is a structural hash (equal exactly on structurally
  equal nodes), so id comparison is modelled by decidable equality of the
  embedded `Symbol` values, and Python id-sets become `List Symbol` used
  only through membership.
- Submesh edge coordinates (numpy floats in the source) are modelled as
  rationals, which keeps every definition executable.
-/

namespace PyBaMM

/-- Modelled from the spec: the external expression-tree protocol (spec section 6).
Nodes (pybamm.Symbol subclasses: Variable, Scalar, StateVector, Concatenation,
Gradient, Divergence, Integral and the various operator nodes, here collected
as `BinaryOperation`) carry a stable identity and support `pre_order`
traversal; the expression-tree classes themselves are not part of the two
source files under verification. `Concat` embeds `pybamm.Concatenation`
with its list of children. -/
inductive Symbol : Type where
  | Variable (name : String)
  | Scalar (value : Int)
  | StateVector (start stop : Nat)
  | Concat (children : List Symbol)
  | Gradient (child : Symbol)
  | Divergence (child : Symbol)
  | Integral (child : Symbol)
  | BinaryOperation (name : String) (left right : Symbol)

mutual

/-- Boolean structural equality of symbols; stands for PyBaMM's `x.id == y.id`
(the id is a structural hash). -/
def Symbol.beq : Symbol → Symbol → Bool
  | .Variable n, .Variable n' => n == n'
  | .Scalar v, .Scalar v' => v == v'
  | .StateVector a b, .StateVector a' b' => a == a' && b == b'
  | .Concat cs, .Concat cs' => Symbol.beqList cs cs'
  | .Gradient c, .Gradient c' => Symbol.beq c c'
  | .Divergence c, .Divergence c' => Symbol.beq c c'
  | .Integral c, .Integral c' => Symbol.beq c c'
  | .BinaryOperation n l r, .BinaryOperation n' l' r' =>
      n == n' && Symbol.beq l l' && Symbol.beq r r'
  | _, _ => false

/-- Pointwise `Symbol.beq` on lists of children. -/
def Symbol.beqList : List Symbol → List Symbol → Bool
  | [], [] => true
  | s :: ss, t :: ts => Symbol.beq s t && Symbol.beqList ss ts
  | _, _ => false

end

mutual

theorem Symbol.beq_iff : ∀ (a b : Symbol), Symbol.beq a b = true ↔ a = b
  | .Variable _, b => by cases b <;> simp [Symbol.beq]
  | .Scalar _, b => by cases b <;> simp [Symbol.beq]
  | .StateVector _ _, b => by cases b <;> simp [Symbol.beq]
  | .Concat cs, b => by
      cases b <;> simp [Symbol.beq, Symbol.beqList_iff cs _]
  | .Gradient c, b => by cases b <;> simp [Symbol.beq, Symbol.beq_iff c _]
  | .Divergence c, b => by cases b <;> simp [Symbol.beq, Symbol.beq_iff c _]
  | .Integral c, b => by cases b <;> simp [Symbol.beq, Symbol.beq_iff c _]
  | .BinaryOperation _ l r, b => by
      cases b <;> simp [Symbol.beq, Symbol.beq_iff l _, Symbol.beq_iff r _, and_assoc]

theorem Symbol.beqList_iff : ∀ (l l' : List Symbol), Symbol.beqList l l' = true ↔ l = l'
  | [], l' => by cases l' <;> simp [Symbol.beqList]
  | s :: ss, l' => by
      cases l' <;> simp [Symbol.beqList, Symbol.beq_iff s _, Symbol.beqList_iff ss _]

end

instance : DecidableEq Symbol := fun a b => decidable_of_iff _ (Symbol.beq_iff a b)

mutual

/-- Embedding of `Symbol.pre_order()`: the node followed by the pre-order
traversals of its children. -/
def Symbol.pre_order : Symbol → List Symbol
  | .Variable n => [.Variable n]
  | .Scalar v => [.Scalar v]
  | .StateVector a b => [.StateVector a b]
  | .Concat cs => .Concat cs :: Symbol.pre_order_list cs
  | .Gradient c => .Gradient c :: c.pre_order
  | .Divergence c => .Divergence c :: c.pre_order
  | .Integral c => .Integral c :: c.pre_order
  | .BinaryOperation n l r => .BinaryOperation n l r :: (l.pre_order ++ r.pre_order)

/-- Concatenated pre-order traversals of a list of symbols. -/
def Symbol.pre_order_list : List Symbol → List Symbol
  | [] => []
  | s :: ss => s.pre_order ++ Symbol.pre_order_list ss

end

/-- Test for `isinstance(x, pybamm.Variable)`. -/
def Symbol.is_variable : Symbol → Bool
  | .Variable _ => true
  | _ => false

/-- Test for `isinstance(x, pybamm.Concatenation)`. -/
def Symbol.is_concat : Symbol → Bool
  | .Concat _ => true
  | _ => false

/-- Test for `isinstance(x, pybamm.StateVector)`. -/
def Symbol.is_state_vector : Symbol → Bool
  | .StateVector _ _ => true
  | _ => false

/-- Test used by `eqn.has_symbol_of_classes((pybamm.Gradient, pybamm.Divergence))`. -/
def Symbol.is_grad_or_div : Symbol → Bool
  | .Gradient _ => true
  | .Divergence _ => true
  | _ => false

/-- Test for `isinstance(x, pybamm.Integral)`. -/
def Symbol.is_integral_node : Symbol → Bool
  | .Integral _ => true
  | _ => false

/-- Embedding of `eqn.has_symbol_of_classes((pybamm.Gradient, pybamm.Divergence))`. -/
def Symbol.has_grad_or_div (s : Symbol) : Bool := s.pre_order.any Symbol.is_grad_or_div

/-- Embedding of `eqn.has_symbol_of_classes(pybamm.Integral)`. -/
def Symbol.has_integral (s : Symbol) : Bool := s.pre_order.any Symbol.is_integral_node

/-- Variable nodes occurring anywhere in an expression tree:
`[x for x in e.pre_order() if isinstance(x, pybamm.Variable)]`. -/
def vars_of (s : Symbol) : List Symbol := s.pre_order.filter Symbol.is_variable

/-- Every error raised by the two source files, one constructor per raise
site.  Constructor names abbreviate the raised message:
`submeshEdgesNotAligned` is `pybamm.DomainError("submesh edges are not
aligned")`, `combineCoordinateSystems` is `pybamm.DomainError("trying to
combine two meshes in different coordinate systems")`, and the remaining
ones are the `pybamm.ModelError`s of `base_model.py`. -/
inductive PybammError : Type where
  | submeshEdgesNotAligned
  | combineCoordinateSystems
  | duplicateVariables (vars : List Symbol)
  | overdeterminedRepeatedKeys
  | overdeterminedExtraAlgebraicKeys
  | underdeterminedTooManyVariables
  | algebraicKeyNotInEquation (var : Symbol)
  | algebraicEquationNoStateVector (eqn : Symbol)
  | noInitialCondition (var : Symbol)
  | noBoundaryCondition (var eqn : Symbol)
  | noKeySetForVariable (var : Symbol)
deriving DecidableEq

/-- Lookup in an association list, the model of Python `dict` access. -/
def dict_lookup {κ α : Type} [DecidableEq κ] : List (κ × α) → κ → Option α
  | [], _ => none
  | p :: ps, k => if p.1 = k then some p.2 else dict_lookup ps k

/-- Embedding of Python `dict1.update(dict2)`: keys already present keep
their position and receive `dict2`'s value, new keys are appended in
`dict2` order. -/
def dict_update {κ α : Type} [DecidableEq κ] (d1 d2 : List (κ × α)) : List (κ × α) :=
  d1.map (fun p => match dict_lookup d2 p.1 with | some v => (p.1, v) | none => p) ++
    d2.filter (fun q => !(d1.any (fun p => decide (p.1 = q.1))))

/-- Key list of an association list (Python `dict.keys()`). -/
def dict_keys {κ α : Type} (d : List (κ × α)) : List κ := d.map Prod.fst

/-- Embedding of the `BaseModel` state touched by the claims: the four
equation dictionaries, the string-keyed output-variables dictionary
(whose values may still be unset, i.e. `None`), the event list and the
external variables. -/
structure Model where
  rhs : List (Symbol × Symbol)
  algebraic : List (Symbol × Symbol)
  initial_conditions : List (Symbol × Symbol)
  boundary_conditions : List (Symbol × List (String × (Symbol × String)))
  variables_dict : List (String × Option Symbol)
  events : List (String × Symbol)
  external_variables : List Symbol

/-- Variable identities appearing in the rhs keys (`vars_in_rhs_keys` of
`check_well_determined`, collected over `var.pre_order()`). -/
def vars_in_rhs_keys (m : Model) : List Symbol := (dict_keys m.rhs).flatMap vars_of

/-- Variable identities appearing in the algebraic keys. -/
def vars_in_algebraic_keys (m : Model) : List Symbol := (dict_keys m.algebraic).flatMap vars_of

/-- Every boundary-condition expression of the model: the `eqn` of each
`(eqn, typ)` pair on each side of each boundary-condition entry. -/
def bc_eqns (m : Model) : List Symbol :=
  m.boundary_conditions.flatMap (fun p => p.2.map (fun q => q.2.1))

/-- Variable identities appearing in any rhs or algebraic equation body or
any boundary-condition expression (`vars_in_eqns` of
`check_well_determined`). -/
def vars_in_eqns (m : Model) : List Symbol :=
  (m.rhs.map Prod.snd).flatMap vars_of ++ (m.algebraic.map Prod.snd).flatMap vars_of ++
    (bc_eqns m).flatMap vars_of

/-- Direct children of a `Concat`, used when expanding external
concatenation variables. -/
def concat_children : Symbol → List Symbol
  | .Concat cs => cs
  | _ => []

/-- Identity set of the external variables: the variables themselves
together with the children of every external `Concat`
(`external_ids` in `check_well_determined`). -/
def external_ids (m : Model) : List Symbol :=
  m.external_variables ++ m.external_variables.flatMap concat_children

/-- Embedding of `BaseModel.check_well_determined`: overdetermined when rhs
and algebraic key identities repeat, overdetermined (pre-discretisation
only) when an algebraic key is absent from every equation, underdetermined
when an equation variable is neither a key nor external. -/
def check_well_determined (m : Model) (post_discretisation : Bool) : Except PybammError Unit :=
  if (vars_in_rhs_keys m).any (fun v => decide (v ∈ vars_in_algebraic_keys m)) then
    .error .overdeterminedRepeatedKeys
  else if ((vars_in_algebraic_keys m).any (fun v => !decide (v ∈ vars_in_eqns m)))
      && !post_discretisation then
    .error .overdeterminedExtraAlgebraicKeys
  else if (vars_in_eqns m).any (fun v =>
      !decide (v ∈ vars_in_rhs_keys m ++ vars_in_algebraic_keys m)
        && !decide (v ∈ external_ids m)) then
    .error .underdeterminedTooManyVariables
  else .ok ()

/-- Variable identities in the boundary conditions, as collected at the top
of `check_algebraic_equations`. -/
def vars_in_bcs (m : Model) : List Symbol := (bc_eqns m).flatMap vars_of

/-- Embedding of `BaseModel.check_algebraic_equations`. -/
def check_algebraic_equations (m : Model) (post_discretisation : Bool) :
    Except PybammError Unit :=
  if !post_discretisation then
    match m.algebraic.find? (fun p =>
        !(p.2.pre_order.any (fun x => decide (x = p.1)) || decide (p.1 ∈ vars_in_bcs m)
          || p.1.is_concat)) with
    | some p => .error (.algebraicKeyNotInEquation p.1)
    | none => .ok ()
  else
    match m.algebraic.find? (fun p => !(p.2.pre_order.any Symbol.is_state_vector)) with
    | some p => .error (.algebraicEquationNoStateVector p.2)
    | none => .ok ()

/-- Initial-condition half of `BaseModel.check_ics_bcs`: the first rhs key
with no `initial_conditions` entry raises. -/
def check_initial_conditions (m : Model) : Except PybammError Unit :=
  match (dict_keys m.rhs).find? (fun v => !decide (v ∈ dict_keys m.initial_conditions)) with
  | some v => .error (.noInitialCondition v)
  | none => .ok ()

/-- Condition under which the boundary-condition half of `check_ics_bcs`
raises for an entry: the equation holds a Gradient or Divergence, is not
wrapped in an Integral, and no boundary-condition key mentions the
variable's identity. -/
def missing_boundary_condition (m : Model) (var eqn : Symbol) : Bool :=
  eqn.has_grad_or_div && !eqn.has_integral &&
    !(m.boundary_conditions.any (fun q => q.1.pre_order.any (fun x => decide (var = x))))

/-- Boundary-condition half of `BaseModel.check_ics_bcs`, iterating over
`{**self.rhs, **self.algebraic}`. -/
def check_boundary_conditions (m : Model) : Except PybammError Unit :=
  match (dict_update m.rhs m.algebraic).find? (fun p =>
      missing_boundary_condition m p.1 p.2) with
  | some p => .error (.noBoundaryCondition p.1 p.2)
  | none => .ok ()

/-- Embedding of `BaseModel.check_ics_bcs`: the initial-condition loop runs
before the boundary-condition loop. -/
def check_ics_bcs (m : Model) : Except PybammError Unit :=
  match check_initial_conditions m with
  | .error e => .error e
  | .ok _ => check_boundary_conditions m

/-- Embedding of `BaseModel.check_default_variables_dictionaries`: unset
output variables are dropped with a (non-fatal) warning, never an error. -/
def remove_unset_variables (m : Model) : Model :=
  { m with variables_dict := m.variables_dict.filter (fun p => !p.2.isNone) }

/-- Identities contributed by an rhs/algebraic key or external variable in
`check_variables`: a Variable contributes itself, a `Concat` its children. -/
def key_variable_ids : Symbol → List Symbol
  | .Variable n => [.Variable n]
  | .Concat cs => cs
  | _ => []

/-- Embedding of `BaseModel.check_variables` (debug mode only). -/
def check_variables (m : Model) : Except PybammError Unit :=
  let all_vars := (m.variables_dict.filterMap Prod.snd).flatMap vars_of
  let var_ids_in_keys :=
    (dict_keys m.rhs ++ dict_keys m.algebraic ++ m.external_variables).flatMap key_variable_ids
  match all_vars.find? (fun v => !decide (v ∈ var_ids_in_keys)) with
  | some v => .error (.noKeySetForVariable v)
  | none => .ok ()

/-- Embedding of `BaseModel.check_well_posedness`, with the ambient
`pybamm.settings.debug_mode` passed explicitly. -/
def check_well_posedness (m : Model) (post_discretisation debug_mode : Bool) :
    Except PybammError Unit :=
  match check_well_determined m post_discretisation with
  | .error e => .error e
  | .ok _ =>
    match check_algebraic_equations m post_discretisation with
    | .error e => .error e
    | .ok _ =>
      match check_ics_bcs m with
      | .error e => .error e
      | .ok _ =>
        if debug_mode && !post_discretisation then
          check_variables (remove_unset_variables m)
        else .ok ()

/-- Embedding of `BaseModel.check_and_combine_dict`: raises on any key-id
intersection, otherwise `dict1.update(dict2)`. -/
def check_and_combine_dict {α : Type} (d1 d2 : List (Symbol × α)) :
    Except PybammError (List (Symbol × α)) :=
  let dups := (dict_keys d1).filter (fun k => decide (k ∈ dict_keys d2))
  if dups.isEmpty then .ok (dict_update d1 d2)
  else .error (.duplicateVariables dups)

/-- One step of `BaseModel.update`: merge a single submodel's dictionaries,
variables and events into the model. -/
def update_one (m s : Model) : Except PybammError Model :=
  match check_and_combine_dict m.rhs s.rhs with
  | .error e => .error e
  | .ok rhs' =>
    match check_and_combine_dict m.algebraic s.algebraic with
    | .error e => .error e
    | .ok alg' =>
      match check_and_combine_dict m.initial_conditions s.initial_conditions with
      | .error e => .error e
      | .ok ics' =>
        match check_and_combine_dict m.boundary_conditions s.boundary_conditions with
        | .error e => .error e
        | .ok bcs' =>
          .ok { m with
                rhs := rhs',
                algebraic := alg',
                initial_conditions := ics',
                boundary_conditions := bcs',
                variables_dict := dict_update m.variables_dict s.variables_dict,
                events := m.events ++ s.events }

/-- Embedding of `BaseModel.update(*submodels)`. -/
def update : Model → List Model → Except PybammError Model
  | m, [] => .ok m
  | m, s :: ss =>
    match update_one m s with
    | .error e => .error e
    | .ok m' => update m' ss

/-- Adding an initial condition for a variable that has none: Python
`model.initial_conditions[var] = eqn` appends the entry since the key is
new. -/
def add_initial_condition (m : Model) (v eqn : Symbol) : Model :=
  { m with initial_conditions := m.initial_conditions ++ [(v, eqn)] }

instance {ε α : Type} [DecidableEq ε] [DecidableEq α] : DecidableEq (Except ε α)
  | .ok a, .ok b => if h : a = b then .isTrue (by rw [h]) else .isFalse (by simp [h])
  | .error e, .error f => if h : e = f then .isTrue (by rw [h]) else .isFalse (by simp [h])
  | .ok _, .error _ => .isFalse (by simp)
  | .error _, .ok _ => .isFalse (by simp)

/-- Embedding of a PyBaMM `SubMesh1D`: the ordered edge coordinates and the
coordinate-system tag. -/
structure SubMesh1D where
  edges : List ℚ
  coord_sys : String
deriving DecidableEq

/-- Embedding of the `Mesh` dict: domain name to list of submeshes (one per
repeat index). -/
abbrev Mesh := List (String × List SubMesh1D)

/-- Python `self[name]` on the mesh (every claim accesses only names that
are present, so absent names are given the junk value `[]` rather than a
`KeyError`). -/
def mesh_get (m : Mesh) (name : String) : List SubMesh1D := (dict_lookup m name).getD []

/-- Junk submesh used for out-of-range positional indexing, which no claim
exercises. -/
def default_submesh : SubMesh1D := ⟨[], ""⟩

/-- Python `edges[-1]` (junk 0 on an empty edge list). -/
def submesh_last (s : SubMesh1D) : ℚ := s.edges.getLastD 0

/-- Python `edges[0]` (junk 0 on an empty edge list). -/
def submesh_first (s : SubMesh1D) : ℚ := s.edges.headD 0

/-- Alignment check at the top of `Mesh.combine_submeshes`: for every
adjacent pair of domain names and every positional index, the last edge of
the earlier submesh equals the first edge of the later one. -/
def edges_aligned (m : Mesh) (names : List String) : Bool :=
  (names.zip names.tail).all fun pq =>
    (List.range (mesh_get m pq.1).length).all fun j =>
      decide (submesh_last ((mesh_get m pq.1).getD j default_submesh)
            = submesh_first ((mesh_get m pq.2).getD j default_submesh))

/-- Body of the construction loop of `Mesh.combine_submeshes` at positional
index `i`: concatenate the first domain's edges with the tail of every
later domain's edges; the source then compares the first submesh's
coordinate system with itself (`coord_sys` and `coord_sys_r` are both read
from `self[submeshnames[0]][i]`), so the error branch is kept exactly as
written. -/
def combine_at (m : Mesh) (names : List String) (i : Nat) : Except PybammError SubMesh1D :=
  let s0 := (mesh_get m (names.headD "")).getD i default_submesh
  let combined_submesh_edges :=
    s0.edges ++ (names.drop 1).flatMap (fun nm => ((mesh_get m nm).getD i default_submesh).edges.drop 1)
  let coord_sys := s0.coord_sys
  let coord_sys_r := s0.coord_sys
  if coord_sys ≠ coord_sys_r then .error .combineCoordinateSystems
  else .ok ⟨combined_submesh_edges, coord_sys⟩

/-- Run a fallible body over a list, stopping at the first raise (the model
of a Python `for` loop whose body may raise). -/
def collect_except {α β : Type} (f : α → Except PybammError β) :
    List α → Except PybammError (List β)
  | [] => .ok []
  | a :: as =>
    match f a with
    | .error e => .error e
    | .ok b =>
      match collect_except f as with
      | .error e => .error e
      | .ok bs => .ok (b :: bs)

/-- Embedding of `Mesh.combine_submeshes(*submeshnames)`. -/
def combine_submeshes (m : Mesh) (names : List String) : Except PybammError (List SubMesh1D) :=
  if edges_aligned m names then
    collect_except (combine_at m names) (List.range (mesh_get m (names.headD "")).length)
  else .error .submeshEdgesNotAligned

/-- Left ghost cell of a submesh: edges `[2*e[0] - e[1], e[0]]`, same
coordinate system. -/
def left_ghost (s : SubMesh1D) : SubMesh1D :=
  ⟨[2 * s.edges.headD 0 - (s.edges.drop 1).headD 0, s.edges.headD 0], s.coord_sys⟩

/-- Right ghost cell of a submesh: edges `[e[-1], 2*e[-1] - e[-2]]`, same
coordinate system. -/
def right_ghost (s : SubMesh1D) : SubMesh1D :=
  ⟨[s.edges.getLastD 0, 2 * s.edges.getLastD 0 - s.edges.dropLast.getLastD 0], s.coord_sys⟩

/-- Python dict assignment `m[k] = v`: replace the entry in place when the
key is present, append it otherwise. -/
def dict_assign {α : Type} (m : List (String × α)) (k : String) (v : α) : List (String × α) :=
  if m.any (fun p => decide (p.1 = k)) then
    m.map (fun p => if p.1 = k then (k, v) else p)
  else m ++ [(k, v)]

/-- Ghost-mesh assignments performed for one snapshot entry of
`add_ghost_meshes`: the left ghost list, then the right ghost list. -/
def add_ghost_entries (acc : Mesh) (p : String × List SubMesh1D) : Mesh :=
  dict_assign (dict_assign acc (p.1 ++ "_left ghost cell") (p.2.map left_ghost))
    (p.1 ++ "_right ghost cell") (p.2.map right_ghost)

/-- Embedding of `Mesh.add_ghost_meshes`: iterate over a snapshot of the
non-"time" entries, assigning the left and right ghost-cell entries for
each. -/
def add_ghost_meshes (m : Mesh) : Mesh :=
  (m.filter (fun p => decide (p.1 ≠ "time"))).foldl add_ghost_entries m

/-- Tail of `Mesh.__init__` (meshes.py lines 64-70): once the per-domain
submesh lists are built, the constructor invokes `add_ghost_meshes` twice,
once at line 67 and once more at line 70. -/
def mesh_init_ghosts (m : Mesh) : Mesh := add_ghost_meshes (add_ghost_meshes m)

/-- Value produced by the construction loop of `combine_submeshes` at
positional index `i` (the `.ok` payload of `combine_at`). -/
def combined_submesh (m : Mesh) (names : List String) (i : Nat) : SubMesh1D :=
  ⟨((mesh_get m (names.headD "")).getD i default_submesh).edges ++
      (names.drop 1).flatMap
        (fun nm => ((mesh_get m nm).getD i default_submesh).edges.drop 1),
   ((mesh_get m (names.headD "")).getD i default_submesh).coord_sys⟩

/-- Two-domain mesh whose submeshes align at the shared edge 1 but carry
different coordinate systems, exercising the dead coordinate-system check
of `combine_submeshes`. -/
def coord_bug_mesh : Mesh :=
  [("A", [⟨[0, 1], "cartesian"⟩]), ("B", [⟨[1, 2], "spherical polar"⟩])]

/-- Model with every dictionary empty, the base point of the concrete
witnesses. -/
def empty_model : Model := ⟨[], [], [], [], [], [], []⟩

theorem any_mem_iff {l l' : List Symbol} :
    (l.any fun v => decide (v ∈ l')) = true ↔ ∃ v ∈ l, v ∈ l' := by
  simp

theorem any_mem_eq_false {l l' : List Symbol} :
    (l.any fun v => decide (v ∈ l')) = false ↔ ∀ v ∈ l, v ∉ l' := by
  simp

/-- C1: for every model, `check_well_determined` (and hence
`check_well_posedness`, pre- or post-discretisation, debug mode or not)
raises the overdetermined (repeated keys) model-structure error whenever
the Variable identities of the rhs keys intersect those of the algebraic
keys, and never raises that error when the two sets are disjoint. -/
theorem overdetermined_repeated_keys_check (m : Model) (post dbg : Bool) :
    ((∃ v ∈ vars_in_rhs_keys m, v ∈ vars_in_algebraic_keys m) →
      check_well_determined m post = .error .overdeterminedRepeatedKeys ∧
      check_well_posedness m post dbg = .error .overdeterminedRepeatedKeys) ∧
    ((∀ v ∈ vars_in_rhs_keys m, v ∉ vars_in_algebraic_keys m) →
      check_well_determined m post ≠ .error .overdeterminedRepeatedKeys) := by
  constructor
  · intro h
    have hc : ((vars_in_rhs_keys m).any fun v => decide (v ∈ vars_in_algebraic_keys m))
        = true := any_mem_iff.mpr h
    have h1 : check_well_determined m post = .error .overdeterminedRepeatedKeys := by
      unfold check_well_determined
      rw [if_pos hc]
    refine ⟨h1, ?_⟩
    unfold check_well_posedness
    rw [h1]
  · intro h
    have hc : ((vars_in_rhs_keys m).any fun v => decide (v ∈ vars_in_algebraic_keys m))
        = false := any_mem_eq_false.mpr h
    unfold check_well_determined
    rw [if_neg (by simp [hc])]
    split
    · simp
    · split
      · simp
      · simp

/-- Closed witness for C1: a model whose single variable `x` is both an rhs
and an algebraic key is rejected as overdetermined, and one where `x` is
only an rhs key is not rejected with that error. -/
theorem overdetermined_repeated_keys_check_witness :
    (check_well_determined
        { empty_model with
          rhs := [(.Variable "x", .Scalar 1)],
          algebraic := [(.Variable "x", .Scalar 0)] } false
      = .error .overdeterminedRepeatedKeys) ∧
    (check_well_determined { empty_model with rhs := [(.Variable "x", .Scalar 1)] } false
      ≠ .error .overdeterminedRepeatedKeys) :=
  ⟨((overdetermined_repeated_keys_check _ false false).1 (by decide)).1,
   (overdetermined_repeated_keys_check _ false false).2 (by decide)⟩

/-- C2: for every model on which the earlier overdetermination branches of
`check_well_determined` do not fire, the check raises the underdetermined
error exactly when some Variable identity of an rhs/algebraic equation body
or boundary-condition expression is absent from the Variable identities of
the rhs and algebraic keys and from the external-variable identity set
(the external set containing the children of external concatenations). -/
theorem underdetermined_check_iff (m : Model) (post : Bool)
    (h1 : ∀ v ∈ vars_in_rhs_keys m, v ∉ vars_in_algebraic_keys m)
    (h2 : post = true ∨ ∀ v ∈ vars_in_algebraic_keys m, v ∈ vars_in_eqns m) :
    check_well_determined m post = .error .underdeterminedTooManyVariables ↔
      ∃ v ∈ vars_in_eqns m, v ∉ vars_in_rhs_keys m ∧ v ∉ vars_in_algebraic_keys m ∧
        v ∉ external_ids m := by
  have hc : ((vars_in_rhs_keys m).any fun v => decide (v ∈ vars_in_algebraic_keys m))
      = false := any_mem_eq_false.mpr h1
  have hc2 : (((vars_in_algebraic_keys m).any fun v => !decide (v ∈ vars_in_eqns m))
      && !post) = false := by
    rcases h2 with h2 | h2
    · simp [h2]
    · have : ((vars_in_algebraic_keys m).any fun v => !decide (v ∈ vars_in_eqns m))
          = false := by
        simp only [List.any_eq_false]
        intro v hv
        simp [h2 v hv]
      simp [this]
  unfold check_well_determined
  rw [if_neg (by simp [hc]), if_neg (by simp [hc2])]
  constructor
  · intro h
    have hcond : ((vars_in_eqns m).any fun v =>
        !decide (v ∈ vars_in_rhs_keys m ++ vars_in_algebraic_keys m)
          && !decide (v ∈ external_ids m)) = true := by
      by_contra hno
      rw [if_neg (by simpa using hno)] at h
      exact Except.noConfusion h
    simp only [List.any_eq_true, Bool.and_eq_true, Bool.not_eq_true',
      decide_eq_false_iff_not, List.mem_append] at hcond
    rcases hcond with ⟨v, hv, hnot, hext⟩
    push_neg at hnot
    exact ⟨v, hv, hnot.1, hnot.2, hext⟩
  · intro ⟨v, hv, hr, ha, he⟩
    rw [if_pos]
    simp only [List.any_eq_true, Bool.and_eq_true, Bool.not_eq_true',
      decide_eq_false_iff_not, List.mem_append]
    refine ⟨v, hv, ?_, he⟩
    rintro (h' | h')
    · exact hr h'
    · exact ha h'

/-- Closed witness for C2: a model whose single rhs equation mentions the
undeclared variable `y` is rejected as underdetermined. -/
theorem underdetermined_check_iff_witness :
    check_well_determined { empty_model with rhs := [(.Variable "x", .Variable "y")] } false
      = .error .underdeterminedTooManyVariables :=
  (underdetermined_check_iff _ false (by decide) (Or.inr (by decide))).mpr (by decide)

theorem map_eq_self {α : Type} {l : List α} {f : α → α} (h : ∀ x ∈ l, f x = x) :
    l.map f = l := by
  induction l with
  | nil => rfl
  | cons a t ih => simp [h a (by simp), ih fun x hx => h x (by simp [hx])]

theorem dict_lookup_eq_none {κ α : Type} [DecidableEq κ] {d : List (κ × α)} {k : κ}
    (h : k ∉ dict_keys d) : dict_lookup d k = none := by
  induction d with
  | nil => rfl
  | cons p ps ih =>
    simp only [dict_keys, List.map_cons, List.mem_cons, not_or] at h
    simp only [dict_lookup, if_neg (Ne.symm h.1)]
    exact ih h.2

theorem dict_update_append {κ α : Type} [DecidableEq κ] {d1 d2 : List (κ × α)}
    (h : ∀ k ∈ dict_keys d1, k ∉ dict_keys d2) : dict_update d1 d2 = d1 ++ d2 := by
  unfold dict_update
  have hmap : d1.map (fun p =>
      match dict_lookup d2 p.1 with | some v => (p.1, v) | none => p) = d1 := by
    apply map_eq_self
    intro p hp
    rw [dict_lookup_eq_none (h p.1 (List.mem_map_of_mem Prod.fst hp))]
  have hfil : d2.filter (fun q => !(d1.any fun p => decide (p.1 = q.1))) = d2 := by
    apply List.filter_eq_self.mpr
    intro q hq
    rw [Bool.not_eq_true', List.any_eq_false]
    intro p hp hpq
    have hpq' : p.1 = q.1 := of_decide_eq_true hpq
    exact h p.1 (List.mem_map_of_mem Prod.fst hp) (hpq' ▸ List.mem_map_of_mem Prod.fst hq)
  rw [hmap, hfil]

theorem check_and_combine_dict_error_iff {α : Type} (d1 d2 : List (Symbol × α)) :
    (∃ vs, check_and_combine_dict d1 d2 = .error (.duplicateVariables vs)) ↔
      ∃ k ∈ dict_keys d1, k ∈ dict_keys d2 := by
  unfold check_and_combine_dict
  by_cases h : ((dict_keys d1).filter fun k => decide (k ∈ dict_keys d2)) = []
  · simp only [h, List.isEmpty_nil, if_pos]
    constructor
    · rintro ⟨vs, hvs⟩
      exact Except.noConfusion hvs
    · rintro ⟨k, hk1, hk2⟩
      have : k ∈ ((dict_keys d1).filter fun k => decide (k ∈ dict_keys d2)) := by
        simp [List.mem_filter, hk1, hk2]
      rw [h] at this
      exact absurd this (List.not_mem_nil k)
  · have hne : ((dict_keys d1).filter fun k => decide (k ∈ dict_keys d2)).isEmpty = false := by
      simpa [List.isEmpty_iff] using h
    simp only [hne, Bool.false_eq_true, if_false]
    constructor
    · intro _
      rcases List.exists_mem_of_ne_nil _ h with ⟨k, hk⟩
      rw [List.mem_filter] at hk
      exact ⟨k, hk.1, by simpa using hk.2⟩
    · intro _
      exact ⟨_, rfl⟩

theorem check_and_combine_dict_eq_ok {α : Type} (d1 d2 : List (Symbol × α))
    (h : ∀ k ∈ dict_keys d1, k ∉ dict_keys d2) :
    check_and_combine_dict d1 d2 = .ok (d1 ++ d2) := by
  unfold check_and_combine_dict
  have hfil : ((dict_keys d1).filter fun k => decide (k ∈ dict_keys d2)) = [] := by
    apply List.filter_eq_nil_iff.mpr
    intro k hk
    simpa using h k hk
  simp only [hfil, List.isEmpty_nil, if_pos]
  rw [dict_update_append h]

theorem update_singleton (m s : Model) : update m [s] = update_one m s := by
  cases h : update_one m s <;> simp [update, h]

/-- C8: merging a submodel merges each of the four equation dictionaries,
failing with a duplicate-variable error exactly when the incoming
dictionary's key identities intersect the existing dictionary's; when all
four key sets are disjoint, `update` succeeds and each dictionary becomes
the union of the existing and incoming entries (variables and events are
merged unconditionally). -/
theorem update_duplicate_or_union :
    (∀ (α : Type) (d1 d2 : List (Symbol × α)),
      (∃ vs, check_and_combine_dict d1 d2 = .error (.duplicateVariables vs)) ↔
        ∃ k ∈ dict_keys d1, k ∈ dict_keys d2) ∧
    (∀ m s : Model,
      ((∃ k ∈ dict_keys m.rhs, k ∈ dict_keys s.rhs) ∨
       (∃ k ∈ dict_keys m.algebraic, k ∈ dict_keys s.algebraic) ∨
       (∃ k ∈ dict_keys m.initial_conditions, k ∈ dict_keys s.initial_conditions) ∨
       (∃ k ∈ dict_keys m.boundary_conditions, k ∈ dict_keys s.boundary_conditions)) →
      ∃ vs, update m [s] = .error (.duplicateVariables vs)) ∧
    (∀ m s : Model,
      (∀ k ∈ dict_keys m.rhs, k ∉ dict_keys s.rhs) →
      (∀ k ∈ dict_keys m.algebraic, k ∉ dict_keys s.algebraic) →
      (∀ k ∈ dict_keys m.initial_conditions, k ∉ dict_keys s.initial_conditions) →
      (∀ k ∈ dict_keys m.boundary_conditions, k ∉ dict_keys s.boundary_conditions) →
      update m [s] = .ok { m with
                           rhs := m.rhs ++ s.rhs,
                           algebraic := m.algebraic ++ s.algebraic,
                           initial_conditions := m.initial_conditions ++ s.initial_conditions,
                           boundary_conditions := m.boundary_conditions ++ s.boundary_conditions,
                           variables_dict := dict_update m.variables_dict s.variables_dict,
                           events := m.events ++ s.events }) := by
  refine ⟨fun α d1 d2 => check_and_combine_dict_error_iff d1 d2, ?_, ?_⟩
  · intro m s h
    rw [update_singleton]
    by_cases i1 : ∃ k ∈ dict_keys m.rhs, k ∈ dict_keys s.rhs
    · rcases (check_and_combine_dict_error_iff m.rhs s.rhs).mpr i1 with ⟨vs, hvs⟩
      refine ⟨vs, ?_⟩
      unfold update_one
      rw [hvs]
    · push_neg at i1
      have h1 := check_and_combine_dict_eq_ok m.rhs s.rhs i1
      by_cases i2 : ∃ k ∈ dict_keys m.algebraic, k ∈ dict_keys s.algebraic
      · rcases (check_and_combine_dict_error_iff m.algebraic s.algebraic).mpr i2 with ⟨vs, hvs⟩
        refine ⟨vs, ?_⟩
        unfold update_one
        rw [h1, hvs]
      · push_neg at i2
        have h2 := check_and_combine_dict_eq_ok m.algebraic s.algebraic i2
        by_cases i3 : ∃ k ∈ dict_keys m.initial_conditions, k ∈ dict_keys s.initial_conditions
        · rcases (check_and_combine_dict_error_iff m.initial_conditions
            s.initial_conditions).mpr i3 with ⟨vs, hvs⟩
          refine ⟨vs, ?_⟩
          unfold update_one
          rw [h1, h2, hvs]
        · push_neg at i3
          have h3 := check_and_combine_dict_eq_ok m.initial_conditions s.initial_conditions i3
          by_cases i4 : ∃ k ∈ dict_keys m.boundary_conditions, k ∈ dict_keys s.boundary_conditions
          · rcases (check_and_combine_dict_error_iff m.boundary_conditions
              s.boundary_conditions).mpr i4 with ⟨vs, hvs⟩
            refine ⟨vs, ?_⟩
            unfold update_one
            rw [h1, h2, h3, hvs]
          · rcases h with h | h | h | h
            · rcases h with ⟨k, hk1, hk2⟩
              exact absurd hk2 (i1 k hk1)
            · rcases h with ⟨k, hk1, hk2⟩
              exact absurd hk2 (i2 k hk1)
            · rcases h with ⟨k, hk1, hk2⟩
              exact absurd hk2 (i3 k hk1)
            · exact absurd h i4
  · intro m s h1 h2 h3 h4
    rw [update_singleton]
    unfold update_one
    rw [check_and_combine_dict_eq_ok _ _ h1, check_and_combine_dict_eq_ok _ _ h2,
      check_and_combine_dict_eq_ok _ _ h3, check_and_combine_dict_eq_ok _ _ h4]

theorem add_ic_check_well_determined (m : Model) (v eqn : Symbol) (post : Bool) :
    check_well_determined (add_initial_condition m v eqn) post =
      check_well_determined m post := rfl

theorem add_ic_check_algebraic_equations (m : Model) (v eqn : Symbol) (post : Bool) :
    check_algebraic_equations (add_initial_condition m v eqn) post =
      check_algebraic_equations m post := rfl

theorem add_ic_check_boundary_conditions (m : Model) (v eqn : Symbol) :
    check_boundary_conditions (add_initial_condition m v eqn) =
      check_boundary_conditions m := rfl

theorem add_ic_check_variables (m : Model) (v eqn : Symbol) :
    check_variables (remove_unset_variables (add_initial_condition m v eqn)) =
      check_variables (remove_unset_variables m) := rfl

/-- C9: for every model, `check_ics_bcs` raises the missing-initial-condition
error whenever some rhs key has no entry in `initial_conditions` (so
`check_well_posedness` cannot succeed, and raises exactly that error when the
two earlier checks pass); conversely, when every rhs key apart from `v` is
covered and every other check passes, adding an entry for `v` makes
`check_well_posedness` succeed. -/
theorem missing_initial_condition_check (m : Model) (post dbg : Bool) :
    ((∃ v ∈ dict_keys m.rhs, v ∉ dict_keys m.initial_conditions) →
      ∃ v ∈ dict_keys m.rhs, v ∉ dict_keys m.initial_conditions ∧
        check_ics_bcs m = .error (.noInitialCondition v) ∧
        check_well_posedness m post dbg ≠ .ok () ∧
        (check_well_determined m post = .ok () →
          check_algebraic_equations m post = .ok () →
          check_well_posedness m post dbg = .error (.noInitialCondition v))) ∧
    (∀ v eqn : Symbol,
      (∀ w ∈ dict_keys m.rhs, w = v ∨ w ∈ dict_keys m.initial_conditions) →
      check_well_determined m post = .ok () →
      check_algebraic_equations m post = .ok () →
      check_boundary_conditions m = .ok () →
      (dbg = true → post = false →
        check_variables (remove_unset_variables m) = .ok ()) →
      check_well_posedness (add_initial_condition m v eqn) post dbg = .ok ()) := by
  constructor
  · rintro ⟨v0, hv0, hnv0⟩
    have hps : ((dict_keys m.rhs).find?
        (fun v => !decide (v ∈ dict_keys m.initial_conditions))).isSome = true := by
      rw [List.find?_isSome]
      exact ⟨v0, hv0, by simpa using hnv0⟩
    rcases Option.isSome_iff_exists.mp hps with ⟨v, hfind⟩
    have hv : v ∈ dict_keys m.rhs := List.mem_of_find?_eq_some hfind
    have hnv : v ∉ dict_keys m.initial_conditions := by
      have := List.find?_some hfind
      simpa using this
    have hic : check_initial_conditions m = .error (.noInitialCondition v) := by
      unfold check_initial_conditions
      rw [hfind]
    have hicsbcs : check_ics_bcs m = .error (.noInitialCondition v) := by
      unfold check_ics_bcs
      rw [hic]
    refine ⟨v, hv, hnv, hicsbcs, ?_, ?_⟩
    · unfold check_well_posedness
      cases h1 : check_well_determined m post with
      | error e => simp
      | ok u =>
        cases h2 : check_algebraic_equations m post with
        | error e => simp
        | ok u' => rw [hicsbcs]; simp
    · intro h1 h2
      unfold check_well_posedness
      rw [h1, h2, hicsbcs]
  · intro v eqn hcover h1 h2 h3 hdbg
    have hic : check_initial_conditions (add_initial_condition m v eqn) = .ok () := by
      unfold check_initial_conditions
      have hnone : (dict_keys (add_initial_condition m v eqn).rhs).find?
          (fun w => !decide (w ∈ dict_keys
            (add_initial_condition m v eqn).initial_conditions)) = none := by
        apply List.find?_eq_none.mpr
        intro w hw
        have hw' : w ∈ dict_keys m.rhs := hw
        have hmem : w ∈ dict_keys (add_initial_condition m v eqn).initial_conditions := by
          show w ∈ dict_keys (m.initial_conditions ++ [(v, eqn)])
          rcases hcover w hw' with h | h
          · simp [dict_keys, h]
          · simp only [dict_keys, List.map_append]
            exact List.mem_append_left _ h
        simp [hmem]
      rw [hnone]
    have hicsbcs : check_ics_bcs (add_initial_condition m v eqn) = .ok () := by
      unfold check_ics_bcs
      rw [hic, add_ic_check_boundary_conditions, h3]
    unfold check_well_posedness
    rw [add_ic_check_well_determined, add_ic_check_algebraic_equations, h1, h2, hicsbcs]
    cases hd : dbg with
    | false => simp
    | true =>
      cases hp : post with
      | false =>
        simp only [Bool.not_false, Bool.and_self, if_pos]
        rw [add_ic_check_variables]
        exact hdbg hd hp
      | true => simp

/-- Closed witness for C9: a model whose rhs key `x` has no initial
condition is rejected by `check_ics_bcs`, and adding the entry makes
`check_well_posedness` succeed. -/
theorem missing_initial_condition_check_witness :
    (∃ v ∈ dict_keys (Model.rhs { empty_model with rhs := [(.Variable "x", .Scalar 1)] }),
      v ∉ dict_keys (Model.initial_conditions
        { empty_model with rhs := [(.Variable "x", .Scalar 1)] }) ∧
      check_ics_bcs { empty_model with rhs := [(.Variable "x", .Scalar 1)] }
        = .error (.noInitialCondition v) ∧
      check_well_posedness { empty_model with rhs := [(.Variable "x", .Scalar 1)] }
        false false ≠ .ok () ∧
      (check_well_determined { empty_model with rhs := [(.Variable "x", .Scalar 1)] }
          false = .ok () →
        check_algebraic_equations { empty_model with rhs := [(.Variable "x", .Scalar 1)] }
          false = .ok () →
        check_well_posedness { empty_model with rhs := [(.Variable "x", .Scalar 1)] }
          false false = .error (.noInitialCondition v))) ∧
    check_well_posedness
      (add_initial_condition { empty_model with rhs := [(.Variable "x", .Scalar 1)] }
        (.Variable "x") (.Scalar 5)) false false = .ok () :=
  ⟨(missing_initial_condition_check _ false false).1 (by decide),
   (missing_initial_condition_check _ false false).2 (.Variable "x") (.Scalar 5)
     (by decide) rfl rfl rfl
     (fun h => absurd h Bool.false_ne_true)⟩

/-- Closed witness for C8: merging two submodels that share the rhs key `x`
fails with a duplicate-variable error, and merging submodels with the
disjoint rhs keys `x` and `y` produces the union dictionary. -/
theorem update_duplicate_or_union_witness :
    (∃ vs, update { empty_model with rhs := [(.Variable "x", .Scalar 1)] }
        [{ empty_model with rhs := [(.Variable "x", .Scalar 2)] }]
      = .error (.duplicateVariables vs)) ∧
    update { empty_model with rhs := [(.Variable "x", .Scalar 1)] }
        [{ empty_model with rhs := [(.Variable "y", .Scalar 2)] }]
      = .ok { empty_model with rhs := [(.Variable "x", .Scalar 1), (.Variable "y", .Scalar 2)] } :=
  ⟨update_duplicate_or_union.2.1 _ _ (Or.inl (by decide)),
   update_duplicate_or_union.2.2 _ _ (by decide) (by decide) (by decide) (by decide)⟩

theorem combine_at_eq (m : Mesh) (names : List String) (i : Nat) :
    combine_at m names i = .ok (combined_submesh m names i) := by
  simp [combine_at, combined_submesh]

theorem collect_except_ok {α β : Type} {f : α → Except PybammError β} {g : α → β}
    {l : List α} (h : ∀ a ∈ l, f a = .ok (g a)) :
    collect_except f l = .ok (l.map g) := by
  induction l with
  | nil => rfl
  | cons a t ih =>
    simp [collect_except, h a (by simp), ih fun x hx => h x (by simp [hx])]

theorem edges_aligned_iff (m : Mesh) (names : List String) :
    edges_aligned m names = true ↔
      ∀ p ∈ names.zip names.tail, ∀ j < (mesh_get m p.1).length,
        submesh_last ((mesh_get m p.1).getD j default_submesh) =
          submesh_first ((mesh_get m p.2).getD j default_submesh) := by
  simp [edges_aligned, List.all_eq_true, List.mem_range]

theorem combine_submeshes_ok (m : Mesh) (names : List String)
    (h : edges_aligned m names = true) :
    combine_submeshes m names =
      .ok ((List.range (mesh_get m (names.headD "")).length).map
        (combined_submesh m names)) := by
  unfold combine_submeshes
  rw [if_pos h]
  exact collect_except_ok fun i _ => combine_at_eq m names i

/-- C5: the coordinate-system guard of `combine_submeshes` never fires: the
source compares `self[submeshnames[0]][i].coord_sys` with itself, so
combining aligned submeshes with differing coordinate systems returns a
combined submesh (carrying the first domain's tag) instead of raising the
advertised domain-mismatch error. -/
theorem combine_never_raises_coord_error :
    (∀ (m : Mesh) (names : List String),
      combine_submeshes m names ≠ .error .combineCoordinateSystems) ∧
    combine_submeshes coord_bug_mesh ["A", "B"] = .ok [⟨[0, 1, 2], "cartesian"⟩] := by
  constructor
  · intro m names
    unfold combine_submeshes
    split
    · rw [collect_except_ok fun i _ => combine_at_eq m names i]
      simp
    · simp
  · decide

theorem length_le_sum {l : List Nat} (h : ∀ x ∈ l, 1 ≤ x) : l.length ≤ l.sum := by
  induction l with
  | nil => simp
  | cons a t ih =>
    simp only [List.length_cons, List.sum_cons]
    have ha := h a (by simp)
    have ht := ih fun x hx => h x (by simp [hx])
    omega

theorem sum_map_sub_one {l : List Nat} (h : ∀ x ∈ l, 1 ≤ x) :
    (l.map fun x => x - 1).sum = l.sum - l.length := by
  induction l with
  | nil => rfl
  | cons a t ih =>
    simp only [List.map_cons, List.sum_cons, List.length_cons]
    have ha := h a (by simp)
    have ht := ih fun x hx => h x (by simp [hx])
    have := length_le_sum (l := t) fun x hx => h x (List.mem_cons_of_mem a hx)
    omega

/-- C4: whenever the submesh lists of the listed domains all have the same
length and at some adjacent pair of domains and some positional index the
last edge of the earlier submesh differs from the first edge of the later
one, `combine_submeshes` fails with the domain-mismatch error "submesh
edges are not aligned", regardless of which pair is mismatched.  (The
equal-length hypothesis records the regime in which the embedding's
defaulted indexing agrees with Python's, which would raise `IndexError`
rather than `DomainError` on ragged lists.) -/
theorem combine_misaligned_error (m : Mesh) (names : List String) (r : Nat)
    (_hlen : ∀ nm ∈ names, (mesh_get m nm).length = r)
    (hmis : ∃ p ∈ names.zip names.tail, ∃ j < (mesh_get m p.1).length,
      submesh_last ((mesh_get m p.1).getD j default_submesh) ≠
        submesh_first ((mesh_get m p.2).getD j default_submesh)) :
    combine_submeshes m names = .error .submeshEdgesNotAligned := by
  have hfalse : ¬ edges_aligned m names = true := by
    rw [edges_aligned_iff]
    push_neg
    rcases hmis with ⟨p, hp, j, hj, hne⟩
    exact ⟨p, hp, j, hj, hne⟩
  unfold combine_submeshes
  rw [if_neg hfalse]

/-- Closed witness for C4: domains whose submeshes end at 1 and start at 2
are rejected with the alignment error. -/
theorem combine_misaligned_error_witness :
    combine_submeshes [("A", [⟨[0, 1], "cartesian"⟩]), ("B", [⟨[2, 3], "cartesian"⟩])]
      ["A", "B"] = .error .submeshEdgesNotAligned :=
  combine_misaligned_error _ _ 1 (by decide) (by decide)

/-- C3: combining domains whose submesh lists have equal length `r` and
whose adjacent submeshes share their boundary edge yields, for each repeat
index, a freshly built submesh carrying the first domain's coordinate
system, whose edge sequence is the first domain's edges followed by every
later domain's edges with the duplicated shared first edge dropped, so its
length is the sum of the input lengths minus the number of joins. -/
theorem combine_aligned_result (m : Mesh) (n0 : String) (rest : List String) (r : Nat)
    (hlen : ∀ nm ∈ n0 :: rest, (mesh_get m nm).length = r)
    (halign : ∀ p ∈ (n0 :: rest).zip rest, ∀ j < (mesh_get m p.1).length,
      submesh_last ((mesh_get m p.1).getD j default_submesh) =
        submesh_first ((mesh_get m p.2).getD j default_submesh))
    (hedges : ∀ nm ∈ n0 :: rest, ∀ s ∈ mesh_get m nm, 2 ≤ s.edges.length) :
    combine_submeshes m (n0 :: rest) =
      .ok ((List.range r).map (combined_submesh m (n0 :: rest))) ∧
    ∀ i < r,
      (combined_submesh m (n0 :: rest) i).coord_sys =
        ((mesh_get m n0).getD i default_submesh).coord_sys ∧
      (combined_submesh m (n0 :: rest) i).edges =
        ((mesh_get m n0).getD i default_submesh).edges ++
          rest.flatMap (fun nm => ((mesh_get m nm).getD i default_submesh).edges.drop 1) ∧
      (combined_submesh m (n0 :: rest) i).edges.length =
        ((n0 :: rest).map fun nm =>
          ((mesh_get m nm).getD i default_submesh).edges.length).sum - rest.length := by
  have halign' : edges_aligned m (n0 :: rest) = true := (edges_aligned_iff m _).mpr halign
  constructor
  · rw [combine_submeshes_ok m _ halign']
    have : mesh_get m ((n0 :: rest).headD "") = mesh_get m n0 := rfl
    rw [this, hlen n0 (by simp)]
  · intro i hi
    refine ⟨rfl, rfl, ?_⟩
    have hone : ∀ nm ∈ rest, 1 ≤ ((mesh_get m nm).getD i default_submesh).edges.length := by
      intro nm hnm
      have hr : (mesh_get m nm).length = r := hlen nm (by simp [hnm])
      have hi' : i < (mesh_get m nm).length := by omega
      rw [List.getD_eq_getElem _ _ hi']
      have h2 := hedges nm (by simp [hnm]) _ (List.getElem_mem hi')
      omega
    show (((mesh_get m n0).getD i default_submesh).edges ++
        rest.flatMap (fun nm => ((mesh_get m nm).getD i default_submesh).edges.drop 1)).length
      = _
    rw [List.length_append, List.length_flatMap]
    have hmap : (List.map (List.length ∘ fun nm =>
        ((mesh_get m nm).getD i default_submesh).edges.drop 1) rest) =
        (rest.map fun nm => ((mesh_get m nm).getD i default_submesh).edges.length).map
          (fun x => x - 1) := by
      rw [List.map_map]
      apply List.map_congr_left
      intro nm _
      simp [List.length_drop]
    rw [hmap, sum_map_sub_one (by
      intro x hx
      rcases List.mem_map.mp hx with ⟨nm, hnm, hxe⟩
      exact hxe ▸ hone nm hnm)]
    simp only [List.map_cons, List.sum_cons, List.length_map]
    have hge := length_le_sum (l := rest.map fun nm =>
      ((mesh_get m nm).getD i default_submesh).edges.length) (by
      intro x hx
      rcases List.mem_map.mp hx with ⟨nm, hnm, hxe⟩
      exact hxe ▸ hone nm hnm)
    rw [List.length_map] at hge
    omega

/-- Closed witness for C3: combining three aligned one-cell domains gives
the single submesh with edges 0,1,2,3 in the first domain's coordinate
system. -/
theorem combine_aligned_result_witness :
    combine_submeshes
        [("A", [⟨[0, 1], "cartesian"⟩]), ("B", [⟨[1, 2], "cartesian"⟩]),
         ("C", [⟨[2, 3], "cartesian"⟩])] ["A", "B", "C"]
      = .ok ((List.range 1).map (combined_submesh
        [("A", [⟨[0, 1], "cartesian"⟩]), ("B", [⟨[1, 2], "cartesian"⟩]),
         ("C", [⟨[2, 3], "cartesian"⟩])] ["A", "B", "C"])) ∧
    (combined_submesh
        [("A", [⟨[0, 1], "cartesian"⟩]), ("B", [⟨[1, 2], "cartesian"⟩]),
         ("C", [⟨[2, 3], "cartesian"⟩])] ["A", "B", "C"] 0).edges = [0, 1, 2, 3] :=
  ⟨(combine_aligned_result _ "A" ["B", "C"] 1 (by decide) (by decide) (by decide)).1,
   by decide⟩

theorem string_append_right_cancel {a b c : String} (h : a ++ c = b ++ c) : a = b := by
  have hd := congrArg String.data h
  rw [String.data_append, String.data_append] at hd
  exact String.ext (List.append_cancel_right hd)

theorem string_append_left_cancel {a b c : String} (h : a ++ b = a ++ c) : b = c := by
  have hd := congrArg String.data h
  rw [String.data_append, String.data_append] at hd
  exact String.ext (List.append_cancel_left hd)

theorem left_right_suffix_ne (a b : String) :
    a ++ "_left ghost cell" ≠ b ++ "_right ghost cell" := by
  intro h
  have hd := congrArg String.data h
  rw [String.data_append, String.data_append] at hd
  have hr : "_right ghost cell".data = '_' :: "right ghost cell".data := by decide
  have hd2 : a.data ++ "_left ghost cell".data =
      (b.data ++ ['_']) ++ "right ghost cell".data :=
    hd.trans (by rw [hr]; exact List.append_cons _ _ _)
  have hlen : "_left ghost cell".data.length = "right ghost cell".data.length := by decide
  have := (List.append_inj' hd2 hlen).2
  exact absurd this (by decide)

theorem left_ne_right_tag : ("_left ghost cell" : String) ≠ "_right ghost cell" := by decide

theorem dict_lookup_append {κ α : Type} [DecidableEq κ] (l1 l2 : List (κ × α)) (k : κ) :
    dict_lookup (l1 ++ l2) k =
      match dict_lookup l1 k with
      | some v => some v
      | none => dict_lookup l2 k := by
  induction l1 with
  | nil => rfl
  | cons p ps ih =>
    by_cases hp : p.1 = k
    · simp [dict_lookup, hp]
    · simp only [List.cons_append, dict_lookup, if_neg hp]
      exact ih

theorem lookup_map_replace_ne {α : Type} (m : List (String × α)) (k : String) (v : α)
    (k' : String) (h : k' ≠ k) :
    dict_lookup (m.map fun p => if p.1 = k then (k, v) else p) k' = dict_lookup m k' := by
  induction m with
  | nil => rfl
  | cons p ps ih =>
    by_cases hp : p.1 = k
    · simp only [List.map_cons, if_pos hp, dict_lookup]
      rw [if_neg fun he => h he.symm, if_neg fun he => h (he.symm.trans hp)]
      exact ih
    · simp only [List.map_cons, if_neg hp, dict_lookup]
      by_cases hpk : p.1 = k'
      · rw [if_pos hpk, if_pos hpk]
      · rw [if_neg hpk, if_neg hpk]
        exact ih

theorem lookup_map_replace_self {α : Type} (m : List (String × α)) (k : String) (v : α)
    (h : (m.any fun p => decide (p.1 = k)) = true) :
    dict_lookup (m.map fun p => if p.1 = k then (k, v) else p) k = some v := by
  induction m with
  | nil => simp at h
  | cons p ps ih =>
    by_cases hp : p.1 = k
    · simp [List.map_cons, if_pos hp, dict_lookup]
    · simp only [List.map_cons, if_neg hp, dict_lookup, if_neg hp]
      apply ih
      simp only [List.any_cons, Bool.or_eq_true] at h
      rcases h with h | h
      · exact absurd (of_decide_eq_true h) hp
      · exact h

theorem dict_lookup_assign_self {α : Type} (m : List (String × α)) (k : String) (v : α) :
    dict_lookup (dict_assign m k v) k = some v := by
  unfold dict_assign
  split
  case isTrue hany => exact lookup_map_replace_self m k v hany
  case isFalse hany =>
    rw [dict_lookup_append]
    have hnone : dict_lookup m k = none := by
      apply dict_lookup_eq_none
      intro hmem
      apply hany
      rcases List.mem_map.mp hmem with ⟨p, hp, hpk⟩
      exact List.any_eq_true.mpr ⟨p, hp, by simp [hpk]⟩
    rw [hnone]
    simp [dict_lookup]

theorem dict_lookup_assign_ne {α : Type} (m : List (String × α)) (k : String) (v : α)
    (k' : String) (h : k' ≠ k) :
    dict_lookup (dict_assign m k v) k' = dict_lookup m k' := by
  unfold dict_assign
  split
  case isTrue hany => exact lookup_map_replace_ne m k v k' h
  case isFalse hany =>
    rw [dict_lookup_append]
    cases hl : dict_lookup m k' with
    | some w => rfl
    | none =>
      show dict_lookup [(k, v)] k' = none
      simp only [dict_lookup]
      rw [if_neg fun he => h he.symm]

theorem dict_assign_keys_nodup {α : Type} {m : List (String × α)} (k : String) (v : α)
    (h : (dict_keys m).Nodup) : (dict_keys (dict_assign m k v)).Nodup := by
  unfold dict_assign
  split
  case isTrue hany =>
    have hkeys : dict_keys (m.map fun p => if p.1 = k then (k, v) else p) = dict_keys m := by
      unfold dict_keys
      rw [List.map_map]
      apply List.map_congr_left
      intro p _
      by_cases hp : p.1 = k
      · simp [Function.comp, hp]
      · simp [Function.comp, hp]
    rw [hkeys]
    exact h
  case isFalse hany =>
    unfold dict_keys
    rw [List.map_append]
    rw [List.nodup_append]
    refine ⟨h, List.nodup_singleton k, ?_⟩
    intro x hx
    rcases List.mem_map.mp hx with ⟨p, hp, hpk⟩
    simp only [List.map_cons, List.map_nil, List.mem_singleton]
    intro hxk
    apply hany
    exact List.any_eq_true.mpr ⟨p, hp, by simp [hpk, hxk]⟩

theorem fold_ghost_lookup_unwritten (l : List (String × List SubMesh1D)) (acc : Mesh)
    (K : String)
    (h : ∀ p ∈ l, p.1 ++ "_left ghost cell" ≠ K ∧ p.1 ++ "_right ghost cell" ≠ K) :
    dict_lookup (l.foldl add_ghost_entries acc) K = dict_lookup acc K := by
  induction l generalizing acc with
  | nil => rfl
  | cons p ps ih =>
    rw [List.foldl_cons, ih _ fun q hq => h q (List.mem_cons_of_mem p hq)]
    unfold add_ghost_entries
    rw [dict_lookup_assign_ne _ _ _ _ fun he => (h p (by simp)).2 he.symm,
      dict_lookup_assign_ne _ _ _ _ fun he => (h p (by simp)).1 he.symm]

theorem fold_ghost_lookup_left (l1 l2 : List (String × List SubMesh1D)) (acc : Mesh)
    (d : String) (sl : List SubMesh1D) (h2 : ∀ p ∈ l2, p.1 ≠ d) :
    dict_lookup ((l1 ++ (d, sl) :: l2).foldl add_ghost_entries acc)
      (d ++ "_left ghost cell") = some (sl.map left_ghost) := by
  rw [List.foldl_append, List.foldl_cons]
  rw [fold_ghost_lookup_unwritten l2 _ _ ?hw]
  case hw =>
    intro p hp
    constructor
    · intro he
      exact h2 p hp (string_append_right_cancel he)
    · intro he
      exact left_right_suffix_ne d p.1 he.symm
  unfold add_ghost_entries
  rw [dict_lookup_assign_ne _ _ _ _
    fun he => left_ne_right_tag (string_append_left_cancel he)]
  exact dict_lookup_assign_self _ _ _

theorem fold_ghost_lookup_right (l1 l2 : List (String × List SubMesh1D)) (acc : Mesh)
    (d : String) (sl : List SubMesh1D) (h2 : ∀ p ∈ l2, p.1 ≠ d) :
    dict_lookup ((l1 ++ (d, sl) :: l2).foldl add_ghost_entries acc)
      (d ++ "_right ghost cell") = some (sl.map right_ghost) := by
  rw [List.foldl_append, List.foldl_cons]
  rw [fold_ghost_lookup_unwritten l2 _ _ ?hw]
  case hw =>
    intro p hp
    constructor
    · intro he
      exact left_right_suffix_ne p.1 d he
    · intro he
      exact h2 p hp (string_append_right_cancel he)
  unfold add_ghost_entries
  exact dict_lookup_assign_self _ _ _

theorem dict_lookup_split {κ α : Type} [DecidableEq κ] {m : List (κ × α)} {d : κ} {v : α}
    (h : dict_lookup m d = some v) :
    ∃ l1 l2, m = l1 ++ (d, v) :: l2 ∧ ∀ p ∈ l1, p.1 ≠ d := by
  induction m with
  | nil => exact Option.noConfusion h
  | cons p ps ih =>
    by_cases hp : p.1 = d
    · rw [dict_lookup, if_pos hp] at h
      injection h with h
      refine ⟨[], ps, ?_, by simp⟩
      have : p = (d, v) := Prod.ext hp h
      rw [this]
      rfl
    · rw [dict_lookup, if_neg hp] at h
      rcases ih h with ⟨l1, l2, heq, hne⟩
      refine ⟨p :: l1, l2, by rw [heq]; rfl, ?_⟩
      intro q hq
      rcases List.mem_cons.mp hq with h' | h'
      · rw [h']
        exact hp
      · exact hne q h'

theorem add_ghost_lookup_left {m : Mesh} {d : String} {sl : List SubMesh1D}
    (hnd : (dict_keys m).Nodup) (hd : dict_lookup m d = some sl) (ht : d ≠ "time") :
    dict_lookup (add_ghost_meshes m) (d ++ "_left ghost cell") = some (sl.map left_ghost) := by
  rcases dict_lookup_split hd with ⟨l1, l2, heq, _⟩
  have hl2 : ∀ p ∈ l2, p.1 ≠ d := by
    intro p hp
    have hkeys : dict_keys m = dict_keys l1 ++ d :: dict_keys l2 := by
      rw [heq]
      unfold dict_keys
      simp
    rw [hkeys] at hnd
    have hnd2 := (List.nodup_append.mp hnd).2.1
    have hd2 := List.nodup_cons.mp hnd2
    intro hpd
    exact hd2.1 (hpd ▸ List.mem_map_of_mem Prod.fst hp)
  unfold add_ghost_meshes
  rw [heq, List.filter_append, List.filter_cons]
  rw [if_pos (by simpa using ht)]
  exact fold_ghost_lookup_left _ _ _ _ _ fun p hp => hl2 p (List.mem_of_mem_filter hp)

theorem add_ghost_lookup_right {m : Mesh} {d : String} {sl : List SubMesh1D}
    (hnd : (dict_keys m).Nodup) (hd : dict_lookup m d = some sl) (ht : d ≠ "time") :
    dict_lookup (add_ghost_meshes m) (d ++ "_right ghost cell") =
      some (sl.map right_ghost) := by
  rcases dict_lookup_split hd with ⟨l1, l2, heq, _⟩
  have hl2 : ∀ p ∈ l2, p.1 ≠ d := by
    intro p hp
    have hkeys : dict_keys m = dict_keys l1 ++ d :: dict_keys l2 := by
      rw [heq]
      unfold dict_keys
      simp
    rw [hkeys] at hnd
    have hnd2 := (List.nodup_append.mp hnd).2.1
    have hd2 := List.nodup_cons.mp hnd2
    intro hpd
    exact hd2.1 (hpd ▸ List.mem_map_of_mem Prod.fst hp)
  unfold add_ghost_meshes
  rw [heq, List.filter_append, List.filter_cons]
  rw [if_pos (by simpa using ht)]
  exact fold_ghost_lookup_right _ _ _ _ _ fun p hp => hl2 p (List.mem_of_mem_filter hp)

theorem add_ghost_lookup_preserved {m : Mesh} {K : String}
    (hfresh : ∀ p ∈ m, p.1 ++ "_left ghost cell" ≠ K ∧ p.1 ++ "_right ghost cell" ≠ K) :
    dict_lookup (add_ghost_meshes m) K = dict_lookup m K := by
  unfold add_ghost_meshes
  exact fold_ghost_lookup_unwritten _ _ _ fun p hp => hfresh p (List.mem_of_mem_filter hp)

theorem fold_ghost_keys_nodup (l : List (String × List SubMesh1D)) (acc : Mesh)
    (h : (dict_keys acc).Nodup) :
    (dict_keys (l.foldl add_ghost_entries acc)).Nodup := by
  induction l generalizing acc with
  | nil => exact h
  | cons p ps ih =>
    rw [List.foldl_cons]
    apply ih
    exact dict_assign_keys_nodup _ _ (dict_assign_keys_nodup _ _ h)

theorem add_ghost_keys_nodup {m : Mesh} (h : (dict_keys m).Nodup) :
    (dict_keys (add_ghost_meshes m)).Nodup :=
  fold_ghost_keys_nodup _ _ h

theorem getLastD_irrel {α : Type} {l : List α} (h : l ≠ []) (d d' : α) :
    l.getLastD d = l.getLastD d' := by
  cases l with
  | nil => exact absurd rfl h
  | cons a t => rw [List.getLastD_cons, List.getLastD_cons]

theorem getLastD_append_right {α : Type} {l1 l2 : List α} (h : l2 ≠ []) (d : α) :
    (l1 ++ l2).getLastD d = l2.getLastD d := by
  induction l1 generalizing d with
  | nil => rfl
  | cons a t ih =>
    rw [List.cons_append, List.getLastD_cons, ih a, getLastD_irrel h a d]

theorem getLastD_drop_one {α : Type} {l : List α} (h : 2 ≤ l.length) (d : α) :
    (l.drop 1).getLastD d = l.getLastD d := by
  cases l with
  | nil => simp at h
  | cons a t =>
    have ht : t ≠ [] := by
      intro he
      rw [he] at h
      simp at h
    rw [List.drop_one, List.tail_cons, List.getLastD_cons, getLastD_irrel ht a d]

theorem map_range_getD {β : Type} (f : Nat → β) (r i : Nat) (d : β) (h : i < r) :
    ((List.range r).map f).getD i d = f i := by
  have hlen : i < ((List.range r).map f).length := by simpa using h
  rw [List.getD_eq_getElem _ _ hlen]
  simp

theorem SubMesh1D.eq_of {a b : SubMesh1D} (he : a.edges = b.edges)
    (hc : a.coord_sys = b.coord_sys) : a = b := by
  cases a
  cases b
  simp_all

theorem combined_submesh_two (mm : Mesh) (a b : String) (i : Nat) :
    (combined_submesh mm [a, b] i).edges =
      ((mesh_get mm a).getD i default_submesh).edges ++
        (((mesh_get mm b).getD i default_submesh).edges.drop 1 ++ []) := rfl

theorem combined_submesh_three (mm : Mesh) (a b c : String) (i : Nat) :
    (combined_submesh mm [a, b, c] i).edges =
      ((mesh_get mm a).getD i default_submesh).edges ++
        (((mesh_get mm b).getD i default_submesh).edges.drop 1 ++
          (((mesh_get mm c).getD i default_submesh).edges.drop 1 ++ [])) := rfl

theorem combined_submesh_coord (mm : Mesh) (names : List String) (i : Nat) :
    (combined_submesh mm names i).coord_sys =
      ((mesh_get mm (names.headD "")).getD i default_submesh).coord_sys := rfl

/-- C7: combining three domains in one `combine_submeshes` call agrees with
first combining the first two, installing the intermediate result in the
mesh under a fresh name, and combining it with the third; in particular a
mismatch at either join makes the nested computation fail with the
alignment domain-mismatch error exactly as the single call does.  (The
equal-length and two-edge hypotheses record the mesh invariants under which
Python raises no `IndexError`; `t` is the fresh name of the intermediate.) -/
theorem combine_three_assoc (m : Mesh) (A B C t : String) (r : Nat)
    (hA : (mesh_get m A).length = r) (hB : (mesh_get m B).length = r)
    (_hC : (mesh_get m C).length = r)
    (hBedges : ∀ s ∈ mesh_get m B, 2 ≤ s.edges.length)
    (htC : t ≠ C) :
    combine_submeshes m [A, B, C] =
      (combine_submeshes m [A, B]).bind
        (fun mAB => combine_submeshes ((t, mAB) :: m) [t, C]) := by
  have hzip2 : ([A, B].zip [A, B].tail) = [(A, B)] := rfl
  have hzip3 : ([A, B, C].zip [A, B, C].tail) = [(A, B), (B, C)] := rfl
  by_cases hAB : edges_aligned m [A, B] = true
  · -- the A-B join is aligned: the inner combination succeeds
    have hABiff := (edges_aligned_iff m [A, B]).mp hAB
    rw [hzip2] at hABiff
    have hABpair := hABiff (A, B) (by simp)
    have hok : combine_submeshes m [A, B] =
        .ok ((List.range r).map (combined_submesh m [A, B])) := by
      have h0 := combine_submeshes_ok m [A, B] hAB
      rw [show mesh_get m ([A, B].headD "") = mesh_get m A from rfl, hA] at h0
      exact h0
    rw [hok]
    set M2 : Mesh := (t, (List.range r).map (combined_submesh m [A, B])) :: m with hM2
    show combine_submeshes m [A, B, C] = combine_submeshes M2 [t, C]
    have hgetT : mesh_get M2 t = (List.range r).map (combined_submesh m [A, B]) := by
      simp [hM2, mesh_get, dict_lookup]
    have hgetC : mesh_get M2 C = mesh_get m C := by
      simp [hM2, mesh_get, dict_lookup, htC]
    have hlenT : (mesh_get M2 t).length = r := by
      rw [hgetT]
      simp
    -- the last edge of each intermediate submesh is the last edge of B's submesh
    have hlast : ∀ j, j < r →
        submesh_last ((mesh_get M2 t).getD j default_submesh) =
          submesh_last ((mesh_get m B).getD j default_submesh) := by
      intro j hj
      rw [hgetT, map_range_getD _ r j default_submesh hj]
      have hj' : j < (mesh_get m B).length := by
        rw [hB]
        exact hj
      have hBj : (mesh_get m B).getD j default_submesh ∈ mesh_get m B := by
        rw [List.getD_eq_getElem _ _ hj']
        exact List.getElem_mem hj'
      have h2 := hBedges _ hBj
      have hdropne : ((mesh_get m B).getD j default_submesh).edges.drop 1 ≠ [] := by
        have hpos : 0 < (((mesh_get m B).getD j default_submesh).edges.drop 1).length := by
          rw [List.length_drop]
          omega
        exact List.length_pos.mp hpos
      show ((combined_submesh m [A, B] j).edges).getLastD 0 =
        (((mesh_get m B).getD j default_submesh).edges).getLastD 0
      rw [combined_submesh_two, List.append_nil, getLastD_append_right hdropne,
        getLastD_drop_one h2]
    by_cases hBC : ∀ j, j < r →
        submesh_last ((mesh_get m B).getD j default_submesh) =
          submesh_first ((mesh_get m C).getD j default_submesh)
    · -- both joins aligned: both computations succeed with the same submeshes
      have h3 : edges_aligned m [A, B, C] = true := by
        rw [edges_aligned_iff, hzip3]
        intro p hp
        rcases List.mem_cons.mp hp with h | h
        · subst h
          exact hABpair
        · rcases List.mem_cons.mp h with h | h
          · subst h
            intro j hj
            apply hBC
            show j < r
            rw [← hB]
            exact hj
          · exact absurd h (List.not_mem_nil p)
      have hTC : edges_aligned M2 [t, C] = true := by
        rw [edges_aligned_iff]
        intro p hp
        rcases List.mem_cons.mp hp with h | h
        · subst h
          intro j hj
          rw [hlenT] at hj
          show submesh_last ((mesh_get M2 t).getD j default_submesh) =
            submesh_first ((mesh_get M2 C).getD j default_submesh)
          rw [hlast j hj, hgetC]
          exact hBC j hj
        · exact absurd h (by simp)
      have hok3 : combine_submeshes m [A, B, C] =
          .ok ((List.range r).map (combined_submesh m [A, B, C])) := by
        have h0 := combine_submeshes_ok m [A, B, C] h3
        rw [show mesh_get m ([A, B, C].headD "") = mesh_get m A from rfl, hA] at h0
        exact h0
      have hokTC : combine_submeshes M2 [t, C] =
          .ok ((List.range r).map (combined_submesh M2 [t, C])) := by
        have h0 := combine_submeshes_ok M2 [t, C] hTC
        rw [show mesh_get M2 ([t, C].headD "") = mesh_get M2 t from rfl, hlenT] at h0
        exact h0
      rw [hok3, hokTC]
      congr 1
      apply List.map_congr_left
      intro i hi
      have hir : i < r := List.mem_range.mp hi
      have hgetTi : (mesh_get M2 t).getD i default_submesh = combined_submesh m [A, B] i := by
        rw [hgetT]
        exact map_range_getD _ r i default_submesh hir
      apply SubMesh1D.eq_of
      · rw [combined_submesh_three m A B C i, combined_submesh_two M2 t C i, hgetTi, hgetC,
          combined_submesh_two m A B i]
        simp [List.append_assoc]
      · rw [combined_submesh_coord m [A, B, C] i, combined_submesh_coord M2 [t, C] i]
        show ((mesh_get m A).getD i default_submesh).coord_sys =
          ((mesh_get M2 t).getD i default_submesh).coord_sys
        rw [hgetTi]
        rfl
    · -- the B-C join is mismatched: both computations raise the alignment error
      have h3 : ¬ edges_aligned m [A, B, C] = true := by
        rw [edges_aligned_iff, hzip3]
        intro hall
        apply hBC
        intro j hj
        apply hall (B, C) (by simp)
        show j < (mesh_get m B).length
        rw [hB]
        exact hj
      have hTC : ¬ edges_aligned M2 [t, C] = true := by
        rw [edges_aligned_iff]
        intro hall
        apply hBC
        intro j hj
        have hstep := hall (t, C) (by simp) j (by rw [hlenT]; exact hj)
        rw [show ((t, C).1) = t from rfl, show ((t, C).2) = C from rfl] at hstep
        rw [hlast j hj, hgetC] at hstep
        exact hstep
      unfold combine_submeshes
      rw [if_neg h3, if_neg hTC]
  · -- the A-B join is mismatched: both computations raise the alignment error
    have h3 : ¬ edges_aligned m [A, B, C] = true := by
      rw [edges_aligned_iff, hzip3]
      intro hall
      apply hAB
      rw [edges_aligned_iff, hzip2]
      intro p hp
      rcases List.mem_cons.mp hp with h | h
      · subst h
        exact hall (A, B) (by simp)
      · exact absurd h (List.not_mem_nil p)
    have herr : combine_submeshes m [A, B] = .error .submeshEdgesNotAligned := by
      unfold combine_submeshes
      rw [if_neg hAB]
    rw [herr]
    show combine_submeshes m [A, B, C] = .error .submeshEdgesNotAligned
    unfold combine_submeshes
    rw [if_neg h3]

/-- Closed witness for C7: three aligned unit-interval domains combine the
same way directly and through the named intermediate "AB". -/
theorem combine_three_assoc_witness :
    combine_submeshes
        [("A", [⟨[0, 1], "cartesian"⟩]), ("B", [⟨[1, 2], "cartesian"⟩]),
         ("C", [⟨[2, 3], "cartesian"⟩])] ["A", "B", "C"] =
      (combine_submeshes
          [("A", [⟨[0, 1], "cartesian"⟩]), ("B", [⟨[1, 2], "cartesian"⟩]),
           ("C", [⟨[2, 3], "cartesian"⟩])] ["A", "B"]).bind
        (fun mAB => combine_submeshes
          (("AB", mAB) ::
            [("A", [⟨[0, 1], "cartesian"⟩]), ("B", [⟨[1, 2], "cartesian"⟩]),
             ("C", [⟨[2, 3], "cartesian"⟩])]) ["AB", "C"]) :=
  combine_three_assoc _ "A" "B" "C" "AB" 1 (by decide) (by decide) (by decide)
    (by decide) (by decide)


theorem add_ghost_time_left_unchanged (m : Mesh) :
    dict_lookup (add_ghost_meshes m) ("time" ++ "_left ghost cell") =
      dict_lookup m ("time" ++ "_left ghost cell") := by
  unfold add_ghost_meshes
  apply fold_ghost_lookup_unwritten
  intro p hp
  have hpt : p.1 ≠ "time" := by simpa using List.of_mem_filter hp
  constructor
  · intro he
    exact hpt (string_append_right_cancel he)
  · intro he
    exact left_right_suffix_ne "time" p.1 he.symm

theorem add_ghost_time_right_unchanged (m : Mesh) :
    dict_lookup (add_ghost_meshes m) ("time" ++ "_right ghost cell") =
      dict_lookup m ("time" ++ "_right ghost cell") := by
  unfold add_ghost_meshes
  apply fold_ghost_lookup_unwritten
  intro p hp
  have hpt : p.1 ≠ "time" := by simpa using List.of_mem_filter hp
  constructor
  · intro he
    exact left_right_suffix_ne p.1 "time" he
  · intro he
    exact hpt (string_append_right_cancel he)

/-- C6: for every spatial (non-"time") domain entry of a mesh,
`add_ghost_meshes` installs a left ghost-cell entry mapping each submesh
with edges `e` to the two-edge submesh `[2*e[0] - e[1], e[0]]` and a right
ghost-cell entry mapping it to `[e[-1], 2*e[-1] - e[-2]]`, both preserving
the coordinate system; no ghost entry is produced for the "time" domain
(its ghost keys keep whatever binding the mesh already had). -/
theorem add_ghost_meshes_spec (m : Mesh) (d : String) (sl : List SubMesh1D)
    (hnd : (dict_keys m).Nodup) (hd : dict_lookup m d = some sl) (ht : d ≠ "time") :
    dict_lookup (add_ghost_meshes m) (d ++ "_left ghost cell") =
      some (sl.map left_ghost) ∧
    dict_lookup (add_ghost_meshes m) (d ++ "_right ghost cell") =
      some (sl.map right_ghost) ∧
    (∀ s ∈ sl, ∀ (e0 e1 : ℚ) (rest : List ℚ), s.edges = e0 :: e1 :: rest →
      (left_ghost s).edges = [2 * e0 - e1, e0] ∧ (left_ghost s).coord_sys = s.coord_sys) ∧
    (∀ s ∈ sl, ∀ (front : List ℚ) (a b : ℚ), s.edges = front ++ [a, b] →
      (right_ghost s).edges = [b, 2 * b - a] ∧ (right_ghost s).coord_sys = s.coord_sys) ∧
    dict_lookup (add_ghost_meshes m) ("time" ++ "_left ghost cell") =
      dict_lookup m ("time" ++ "_left ghost cell") ∧
    dict_lookup (add_ghost_meshes m) ("time" ++ "_right ghost cell") =
      dict_lookup m ("time" ++ "_right ghost cell") := by
  refine ⟨add_ghost_lookup_left hnd hd ht, add_ghost_lookup_right hnd hd ht, ?_, ?_,
    add_ghost_time_left_unchanged m, add_ghost_time_right_unchanged m⟩
  · intro s _ e0 e1 rest hs
    constructor
    · show [2 * s.edges.headD 0 - (s.edges.drop 1).headD 0, s.edges.headD 0] = _
      rw [hs]
      rfl
    · rfl
  · intro s _ front a b hs
    have hsplit : s.edges = (front ++ [a]) ++ [b] := by
      rw [hs]
      simp
    have h1 : s.edges.getLastD 0 = b := by
      rw [hsplit, List.getLastD_concat]
    have h2 : s.edges.dropLast.getLastD 0 = a := by
      rw [hsplit, List.dropLast_concat, List.getLastD_concat]
    constructor
    · show [s.edges.getLastD 0, 2 * s.edges.getLastD 0 - s.edges.dropLast.getLastD 0] = _
      rw [h1, h2]
    · rfl

/-- Closed witness for C6: the domain "negative electrode" with edges 0,1,2
acquires the ghost entries with edges `[2*0-1, 0]` and `[2, 2*2-1]`, while
the "time" entry acquires none. -/
theorem add_ghost_meshes_spec_witness :
    dict_lookup (add_ghost_meshes
        [("negative electrode", [⟨[0, 1, 2], "cartesian"⟩]),
         ("time", [⟨[0, 1], "cartesian"⟩])])
      ("negative electrode" ++ "_left ghost cell") =
        some ([(⟨[0, 1, 2], "cartesian"⟩ : SubMesh1D)].map left_ghost) ∧
    dict_lookup (add_ghost_meshes
        [("negative electrode", [⟨[0, 1, 2], "cartesian"⟩]),
         ("time", [⟨[0, 1], "cartesian"⟩])])
      ("negative electrode" ++ "_right ghost cell") =
        some ([(⟨[0, 1, 2], "cartesian"⟩ : SubMesh1D)].map right_ghost) ∧
    (left_ghost ⟨[0, 1, 2], "cartesian"⟩).edges = [2 * 0 - 1, 0] ∧
    (right_ghost ⟨[0, 1, 2], "cartesian"⟩).edges = [2, 2 * 2 - 1] ∧
    dict_lookup (add_ghost_meshes
        [("negative electrode", [⟨[0, 1, 2], "cartesian"⟩]),
         ("time", [⟨[0, 1], "cartesian"⟩])])
      ("time" ++ "_left ghost cell") =
        dict_lookup
          [("negative electrode", [⟨[0, 1, 2], "cartesian"⟩]),
           ("time", [⟨[0, 1], "cartesian"⟩])] ("time" ++ "_left ghost cell") :=
  ⟨(add_ghost_meshes_spec
       [("negative electrode", [⟨[0, 1, 2], "cartesian"⟩]),
        ("time", [⟨[0, 1], "cartesian"⟩])] "negative electrode"
       [(⟨[0, 1, 2], "cartesian"⟩ : SubMesh1D)] (by decide) rfl (by decide)).1,
   (add_ghost_meshes_spec
       [("negative electrode", [⟨[0, 1, 2], "cartesian"⟩]),
        ("time", [⟨[0, 1], "cartesian"⟩])] "negative electrode"
       [(⟨[0, 1, 2], "cartesian"⟩ : SubMesh1D)] (by decide) rfl (by decide)).2.1,
   ((add_ghost_meshes_spec
       [("negative electrode", [⟨[0, 1, 2], "cartesian"⟩]),
        ("time", [⟨[0, 1], "cartesian"⟩])] "negative electrode" _
       (by decide) rfl (by decide)).2.2.1 _ (by simp) 0 1 [2] rfl).1,
   ((add_ghost_meshes_spec
       [("negative electrode", [⟨[0, 1, 2], "cartesian"⟩]),
        ("time", [⟨[0, 1], "cartesian"⟩])] "negative electrode" _
       (by decide) rfl (by decide)).2.2.2.1 _ (by simp) [0] 1 2 rfl).1,
   (add_ghost_meshes_spec
       [("negative electrode", [⟨[0, 1, 2], "cartesian"⟩]),
        ("time", [⟨[0, 1], "cartesian"⟩])] "negative electrode"
       [(⟨[0, 1, 2], "cartesian"⟩ : SubMesh1D)]
       (by decide) rfl (by decide)).2.2.2.2.1⟩

/-- C10: `Mesh.__init__` runs `add_ghost_meshes` twice (meshes.py lines 67
and 70), so after construction every spatial domain has, besides its
first-level left/right ghost-cell entries, second-level entries such as
`"<domain>_left ghost cell_left ghost cell"` holding ghost cells of the
first-level ghost cells. -/
theorem mesh_init_double_ghost (m : Mesh) (d : String) (sl : List SubMesh1D)
    (hnd : (dict_keys m).Nodup) (hd : dict_lookup m d = some sl) (ht : d ≠ "time")
    (hfresh : ∀ p ∈ m, p.1 ++ "_left ghost cell" ≠ d ∧ p.1 ++ "_right ghost cell" ≠ d) :
    dict_lookup (mesh_init_ghosts m) (d ++ "_left ghost cell") =
      some (sl.map left_ghost) ∧
    dict_lookup (mesh_init_ghosts m) (d ++ "_right ghost cell") =
      some (sl.map right_ghost) ∧
    dict_lookup (mesh_init_ghosts m) (d ++ "_left ghost cell" ++ "_left ghost cell") =
      some ((sl.map left_ghost).map left_ghost) ∧
    dict_lookup (mesh_init_ghosts m) (d ++ "_right ghost cell" ++ "_right ghost cell") =
      some ((sl.map right_ghost).map right_ghost) := by
  have hnd1 : (dict_keys (add_ghost_meshes m)).Nodup := add_ghost_keys_nodup hnd
  have hd1 : dict_lookup (add_ghost_meshes m) d = some sl := by
    rw [add_ghost_lookup_preserved hfresh]
    exact hd
  have hL1 := add_ghost_lookup_left hnd hd ht
  have hR1 := add_ghost_lookup_right hnd hd ht
  have htL : d ++ "_left ghost cell" ≠ "time" := by
    intro he
    have hlen := congrArg String.length he
    rw [String.length_append] at hlen
    have h16 : ("_left ghost cell" : String).length = 16 := by decide
    have h4 : ("time" : String).length = 4 := by decide
    omega
  have htR : d ++ "_right ghost cell" ≠ "time" := by
    intro he
    have hlen := congrArg String.length he
    rw [String.length_append] at hlen
    have h17 : ("_right ghost cell" : String).length = 17 := by decide
    have h4 : ("time" : String).length = 4 := by decide
    omega
  exact ⟨add_ghost_lookup_left hnd1 hd1 ht, add_ghost_lookup_right hnd1 hd1 ht,
    add_ghost_lookup_left hnd1 hL1 htL, add_ghost_lookup_right hnd1 hR1 htR⟩

/-- Closed witness for C10: the one-domain mesh "A" ends up with both the
first-level and the second-level ghost entries. -/
theorem mesh_init_double_ghost_witness :
    dict_lookup (mesh_init_ghosts [("A", [⟨[0, 1], "cartesian"⟩])])
      ("A" ++ "_left ghost cell") =
        some ([(⟨[0, 1], "cartesian"⟩ : SubMesh1D)].map left_ghost) ∧
    dict_lookup (mesh_init_ghosts [("A", [⟨[0, 1], "cartesian"⟩])])
      ("A" ++ "_left ghost cell" ++ "_left ghost cell") =
        some (([(⟨[0, 1], "cartesian"⟩ : SubMesh1D)].map left_ghost).map left_ghost) :=
  ⟨(mesh_init_double_ghost [("A", [⟨[0, 1], "cartesian"⟩])] "A"
     [(⟨[0, 1], "cartesian"⟩ : SubMesh1D)]
     (by decide) rfl (by decide) (by decide)).1,
   (mesh_init_double_ghost [("A", [⟨[0, 1], "cartesian"⟩])] "A"
     [(⟨[0, 1], "cartesian"⟩ : SubMesh1D)]
     (by decide) rfl (by decide) (by decide)).2.2.1⟩

end PyBaMM
